import Mathlib

/-!
Verification of the PHOLD benchmark node (`src/phold/Node.cpp`) against its
specification.  The node is shallowly embedded: the mutable C++ object becomes
a Lean structure, each member function becomes a pure function from the node
state to a result together with the updated state, and the two retry loops
(`while (links.at(r) == nullptr)` and the `while (counter >= 1.0)` loop of
`setup`) become fuel-indexed recursions whose exhaustion is reported as a
distinguished `fuelOut` result, with an out-of-range `links.at` access
reported as `outOfRange` (modelling the `std::out_of_range` exception).
C++ `double` values are modelled as rationals, C++ `int` as `Int` and the
container sizes as `Nat`.
-/

namespace Phold

/-- Modelled from the spec: the per-node RNG is `SST::RNG::MersenneRNG`, an
external collaborator of this repository whose source is not part of it.
Section 4.2 of the spec describes it as a deterministic pseudo-random stream
seeded solely from `globalId`, offering `nextUniformReal()` (a value in
`[0,1)`) and `nextUniformUint32()` (an unsigned 32-bit value), with internal
state that is exactly serializable.  We model the state as the seed together
with the number of words already drawn, and the word stream as a concrete
deterministic mixing function of the seed and the draw index. -/
structure RngState where
  seed : Int
  index : Nat
  deriving DecidableEq, Repr, Inhabited

/-- Modelled from the spec: the concrete word stream of the deterministic RNG;
any function of `(seed, index)` producing 32-bit words realises §4.2. -/
def rngWord (seed : Int) (index : Nat) : Nat :=
  ((seed.emod 4294967296).toNat * 1103515245 + index * 2531011 + 12345) % 4294967296

/-- Modelled from the spec: `nextUniformUint32()` draws one 32-bit word and
advances the stream. -/
def nextUInt32 (s : RngState) : Nat × RngState :=
  (rngWord s.seed s.index, ⟨s.seed, s.index + 1⟩)

/-- Modelled from the spec: `nextUniformReal()` draws one word, scaled into
`[0,1)`, and advances the stream. -/
def nextUniform (s : RngState) : ℚ × RngState :=
  ((rngWord s.seed s.index : ℚ) / 4294967296, ⟨s.seed, s.index + 1⟩)

/-- The movement-function binding: the C++ `std::function` member bound by the
constructor (`Node.cpp:64-75`) or rebound on deserialization
(`Node.cpp:233-243`).  It is not itself serialized. -/
inductive MovementBinding where
  | random
  | cyclic
  deriving DecidableEq, Repr, Inhabited

/-- Numeric value of the serialized `RANDOM` tag of `MovementFunctionType`. -/
def RANDOM : Nat := 0

/-- Numeric value of the serialized `CYCLIC` tag of `MovementFunctionType`. -/
def CYCLIC : Nat := 1

/-- The state of a PHOLD `Node` (`src/phold/Node.cpp`).  Fields are exactly
the members serialized by `Node::serialize_order` plus the `movementFunction`
binding.  A link slot is modelled by its presence (`true` = configured link,
`false` = null slot); `additionalData` is an opaque allocation never read and
is not modelled. -/
structure Node where
  myId : Int
  myRow : Int
  myCol : Int
  verbose : Int
  numRings : Int
  links : List Bool
  rowCount : Int
  colCount : Int
  eventDensity : ℚ
  timeToRun : String
  smallPayload : Int
  largePayload : Int
  largeEventFraction : ℚ
  recvCount : Int
  movementFunctionType : Nat
  movementFunctionCounter : Nat
  rng : RngState
  movementFunction : MovementBinding
  deriving DecidableEq, Repr, Inhabited

/-- The configuration read by the constructor from `SST::Params`; `present i`
tells whether `setupLinks` configures slot `i` (a grid-boundary slot stays
null). -/
structure Params where
  numRings : Int
  i : Int
  j : Int
  rowCount : Int
  colCount : Int
  smallPayload : Int
  largePayload : Int
  largeEventFraction : ℚ
  verbose : Int
  timeToRun : String
  eventDensity : ℚ
  movementFunctionStr : String
  present : Nat → Bool

/-- Parsing of the `movementFunction` configuration string
(`Node.cpp:64-75`): returns the serialized tag, the bound movement function,
and whether the unrecognized-name warning was emitted. -/
def parseMovementFunction (s : String) : Nat × MovementBinding × Bool :=
  if s = "random" then (RANDOM, MovementBinding.random, false)
  else if s = "cyclic" then (CYCLIC, MovementBinding.cyclic, false)
  else (RANDOM, MovementBinding.random, true)

/-- The `Node` constructor (`Node.cpp:6-77`): computes `myId = i*colCount+j`,
seeds the RNG from `myId`, creates `numLinks = (2*numRings+1)^2` link slots,
replaces a negative `eventDensity` by `links.size()`, zeroes the counters and
binds the movement function from the configuration string. -/
def mkNode (p : Params) : Node :=
  let myId := p.i * p.colCount + p.j
  let numLinks : Nat := ((2 * p.numRings + 1) * (2 * p.numRings + 1)).toNat
  let links := (List.range numLinks).map p.present
  let density := if p.eventDensity < 0 then (numLinks : ℚ) else p.eventDensity
  let mv := parseMovementFunction p.movementFunctionStr
  { myId := myId
    myRow := p.i
    myCol := p.j
    verbose := p.verbose
    numRings := p.numRings
    links := links
    rowCount := p.rowCount
    colCount := p.colCount
    eventDensity := density
    timeToRun := p.timeToRun
    smallPayload := p.smallPayload
    largePayload := p.largePayload
    largeEventFraction := p.largeEventFraction
    recvCount := 0
    movementFunctionType := mv.1
    movementFunctionCounter := 0
    rng := ⟨myId, 0⟩
    movementFunction := mv.2.1 }

/-- The older variant's constructor (`src/unnamed/part_002:9-54`): it keeps a
negative `eventDensity` literally (no substitution by the link count) and its
movement function is the fixed random one (that variant has no
`movementFunction` parameter). -/
def mkNodeOld (p : Params) : Node :=
  let myId := p.i * p.colCount + p.j
  let numLinks : Nat := ((2 * p.numRings + 1) * (2 * p.numRings + 1)).toNat
  let links := (List.range numLinks).map p.present
  { myId := myId
    myRow := p.i
    myCol := p.j
    verbose := p.verbose
    numRings := p.numRings
    links := links
    rowCount := p.rowCount
    colCount := p.colCount
    eventDensity := p.eventDensity
    timeToRun := p.timeToRun
    smallPayload := p.smallPayload
    largePayload := p.largePayload
    largeEventFraction := p.largeEventFraction
    recvCount := 0
    movementFunctionType := RANDOM
    movementFunctionCounter := 0
    rng := ⟨myId, 0⟩
    movementFunction := MovementBinding.random }

/-- `Node::movementFunctionRandom` (`Node.cpp:167-170`): one 32-bit draw
reduced modulo `links.size()`. -/
def movementFunctionRandom (n : Node) : Nat × Node :=
  let p := nextUInt32 n.rng
  (p.1 % n.links.length, { n with rng := p.2 })

/-- `Node::movementFunctionCyclic` (`Node.cpp:172-176`): returns the counter,
then advances it to `(counter + 1) % links.size()`. -/
def movementFunctionCyclic (n : Node) : Nat × Node :=
  (n.movementFunctionCounter,
   { n with movementFunctionCounter := (n.movementFunctionCounter + 1) % n.links.length })

/-- The bound `movementFunction()` call: dispatch on the binding. -/
def movementSelect (n : Node) : Nat × Node :=
  match n.movementFunction with
  | MovementBinding.random => movementFunctionRandom n
  | MovementBinding.cyclic => movementFunctionCyclic n

/-- `Node::createEvent` (`Node.cpp:132-139`): draw one uniform real `r`,
return a payload of `largePayload` bytes when `r < largeEventFraction`, else
`smallPayload` bytes.  Only the RNG state changes. -/
def createEvent (n : Node) : Int × Node :=
  let p := nextUniform n.rng
  let size := if p.1 < n.largeEventFraction then n.largePayload else n.smallPayload
  (size, { n with rng := p.2 })

/-- Result type of an operation that runs one of the retry loops: `ok` is the
normal result, `outOfRange` models a `links.at` access beyond the vector
(`std::out_of_range`), and `fuelOut` is the fuel-exhaustion artifact of the
shallow embedding of the unbounded `while` loop. -/
inductive StepResult (α : Type) where
  | ok (a : α)
  | outOfRange
  | fuelOut
  deriving DecidableEq, Repr

/-- An emitted event, as observed at the link boundary: the chosen neighbor
slot, the delay handed to `send`, and the payload size. -/
abbrev Emission := Nat × Int × Int

/-- The `while (links.at(r) == nullptr) r = movementFunction();` retry loop
(`Node.cpp:96-98`, `110-112`, `151-153`), entered with a candidate `r` already
drawn; each retry consumes one unit of fuel. -/
def retryLoop : Node → Nat → Nat → StepResult (Nat × Node)
  | n, r, 0 =>
    match n.links[r]? with
    | none => StepResult.outOfRange
    | some true => StepResult.ok (r, n)
    | some false => StepResult.fuelOut
  | n, r, fuel + 1 =>
    match n.links[r]? with
    | none => StepResult.outOfRange
    | some true => StepResult.ok (r, n)
    | some false =>
      let p := movementSelect n
      retryLoop p.2 p.1 fuel

/-- Draw a first candidate with `movementFunction()` and run the retry loop:
the `recipient = movementFunction(); while (...) ...` idiom of `setup` and
`handleEvent`. -/
def retrySelect (n : Node) (fuel : Nat) : StepResult (Nat × Node) :=
  let p := movementSelect n
  retryLoop p.2 p.1 fuel

/-- One initial-load send of `Node::setup` (`Node.cpp:94-99`, `109-114`): the
payload is drawn first (`createEvent()`), then the recipient is selected with
retry; the event is sent with zero delay. -/
def setupSendOne (n : Node) (fuel : Nat) : StepResult (Node × Emission) :=
  let p := createEvent n
  match retrySelect p.2 fuel with
  | StepResult.ok (r, n2) => StepResult.ok (n2, (r, 0, p.1))
  | StepResult.outOfRange => StepResult.outOfRange
  | StepResult.fuelOut => StepResult.fuelOut

/-- The C++ cast of a non-negative `double` to `int` (`int period = 1.0 /
counter;`, `Node.cpp:107`): truncation toward zero of the rational value. -/
def cppIntOfRat (q : ℚ) : Int :=
  q.num.tdiv q.den

/-- The `while (counter >= 1.0)` loop of `Node::setup` (`Node.cpp:93-101`);
`gas` bounds the number of loop iterations of the embedding. -/
def setupWhile : Node → ℚ → Nat → Nat → StepResult (Node × ℚ × List Emission)
  | n, counter, _, 0 =>
    if 1 ≤ counter then StepResult.fuelOut else StepResult.ok (n, counter, [])
  | n, counter, fuel, gas + 1 =>
    if 1 ≤ counter then
      match setupSendOne n fuel with
      | StepResult.ok (n1, em) =>
        match setupWhile n1 (counter - 1) fuel gas with
        | StepResult.ok (n2, c2, ems) => StepResult.ok (n2, c2, em :: ems)
        | StepResult.outOfRange => StepResult.outOfRange
        | StepResult.fuelOut => StepResult.fuelOut
      | StepResult.outOfRange => StepResult.outOfRange
      | StepResult.fuelOut => StepResult.fuelOut
    else StepResult.ok (n, counter, [])

/-- `Node::setup` (`Node.cpp:90-116`): run the integral-part loop, return if
the leftover counter is `≤ 0`, otherwise compute `period = int(1.0/counter)`
and send one extra event exactly when `myId % period == 0` (C++ truncated
`%`, i.e. `Int.tmod`). -/
def setup (n : Node) (fuel gas : Nat) : StepResult (Node × List Emission) :=
  match setupWhile n n.eventDensity fuel gas with
  | StepResult.ok (n1, counter, ems) =>
    if counter ≤ 0 then StepResult.ok (n1, ems)
    else
      let period := cppIntOfRat (1 / counter)
      if n1.myId.tmod period = 0 then
        match setupSendOne n1 fuel with
        | StepResult.ok (n2, em) => StepResult.ok (n2, ems ++ [em])
        | StepResult.outOfRange => StepResult.outOfRange
        | StepResult.fuelOut => StepResult.fuelOut
      else StepResult.ok (n1, ems)
  | StepResult.outOfRange => StepResult.outOfRange
  | StepResult.fuelOut => StepResult.fuelOut

/-- `Node::handleEvent` (`Node.cpp:141-160`): increment `recvCount`, select a
recipient with retry, take the base-class delay `0`
(`timestepIncrementFunction`, `Node.cpp:163-165`), draw the payload and send.
The received event's content is not inspected. -/
def handleEvent (n : Node) (fuel : Nat) : StepResult (Node × Emission) :=
  let n1 := { n with recvCount := n.recvCount + 1 }
  match retrySelect n1 fuel with
  | StepResult.ok (r, n2) =>
    let p := createEvent n2
    StepResult.ok (p.2, (r, 0, p.1))
  | StepResult.outOfRange => StepResult.outOfRange
  | StepResult.fuelOut => StepResult.fuelOut

/-- Deliver `k` events to the node in sequence, collecting the emissions of
each `handleEvent` invocation. -/
def runEvents (n : Node) (fuel : Nat) : Nat → StepResult (Node × List Emission)
  | 0 => StepResult.ok (n, [])
  | k + 1 =>
    match handleEvent n fuel with
    | StepResult.ok (n1, em) =>
      match runEvents n1 fuel k with
      | StepResult.ok (n2, ems) => StepResult.ok (n2, em :: ems)
      | StepResult.outOfRange => StepResult.outOfRange
      | StepResult.fuelOut => StepResult.fuelOut
    | StepResult.outOfRange => StepResult.outOfRange
    | StepResult.fuelOut => StepResult.fuelOut

/-- The checkpoint snapshot: the fields written by `Node::serialize_order`
(`Node.cpp:209-231`) in their fixed order. -/
structure Snapshot where
  myId : Int
  myRow : Int
  myCol : Int
  verbose : Int
  numRings : Int
  links : List Bool
  rowCount : Int
  colCount : Int
  eventDensity : ℚ
  timeToRun : String
  smallPayload : Int
  largePayload : Int
  largeEventFraction : ℚ
  recvCount : Int
  movementFunctionType : Nat
  movementFunctionCounter : Nat
  rng : RngState
  deriving DecidableEq, Repr

/-- The packing direction of `Node::serialize_order`. -/
def serialize (n : Node) : Snapshot :=
  { myId := n.myId
    myRow := n.myRow
    myCol := n.myCol
    verbose := n.verbose
    numRings := n.numRings
    links := n.links
    rowCount := n.rowCount
    colCount := n.colCount
    eventDensity := n.eventDensity
    timeToRun := n.timeToRun
    smallPayload := n.smallPayload
    largePayload := n.largePayload
    largeEventFraction := n.largeEventFraction
    recvCount := n.recvCount
    movementFunctionType := n.movementFunctionType
    movementFunctionCounter := n.movementFunctionCounter
    rng := n.rng }

/-- Rebinding of the movement function from the restored tag on unpack
(`Node.cpp:234-243`): an unrecognized tag warns and defaults to random.
Returns the binding and whether the warning was emitted. -/
def restoreMovement (tag : Nat) : MovementBinding × Bool :=
  if tag = RANDOM then (MovementBinding.random, false)
  else if tag = CYCLIC then (MovementBinding.cyclic, false)
  else (MovementBinding.random, true)

/-- The unpacking direction of `Node::serialize_order`: restore every
serialized field and rebind `movementFunction` from the tag. -/
def deserialize (s : Snapshot) : Node :=
  { myId := s.myId
    myRow := s.myRow
    myCol := s.myCol
    verbose := s.verbose
    numRings := s.numRings
    links := s.links
    rowCount := s.rowCount
    colCount := s.colCount
    eventDensity := s.eventDensity
    timeToRun := s.timeToRun
    smallPayload := s.smallPayload
    largePayload := s.largePayload
    largeEventFraction := s.largeEventFraction
    recvCount := s.recvCount
    movementFunctionType := s.movementFunctionType
    movementFunctionCounter := s.movementFunctionCounter
    rng := s.rng
    movementFunction := (restoreMovement s.movementFunctionType).1 }

/-- The call sequence alphabet of the RNG interface (§4.2). -/
inductive RngCall where
  | real
  | word
  deriving DecidableEq, Repr

/-- The draws produced by a call sequence. -/
inductive RngDraw where
  | real (q : ℚ)
  | word (n : Nat)
  deriving DecidableEq, Repr

/-- Run a call sequence against an RNG state, collecting the outputs. -/
def runRng : RngState → List RngCall → List RngDraw
  | _, [] => []
  | s, RngCall.real :: cs =>
    let p := nextUniform s
    RngDraw.real p.1 :: runRng p.2 cs
  | s, RngCall.word :: cs =>
    let p := nextUInt32 s
    RngDraw.word p.1 :: runRng p.2 cs

/-- The consecutive results of repeated `movementFunction()` calls: the first
component of `selectStream n k` is the value returned by the `k`-th call
(counting from 0) on a node starting in state `n`, the second the state after
that call. -/
def selectStream (n : Node) : Nat → Nat × Node
  | 0 => movementSelect n
  | k + 1 => selectStream (movementSelect n).2 k

/-- Slot `i` of the node's link vector holds a configured link. -/
def linkPresent (n : Node) (i : Nat) : Bool :=
  n.links.getD i false

/-- Fields that the selector, payload and retry machinery leave untouched:
the identity, the link vector and the receive counter. -/
def Pres (n n' : Node) : Prop :=
  n'.myId = n.myId ∧ n'.links = n.links ∧ n'.recvCount = n.recvCount

/-- The counter invariant maintained by the movement policies: the cyclic
counter stays a valid slot index (which also forces the link vector to be
non-empty). -/
def NodeInv (n : Node) : Prop :=
  n.movementFunctionCounter < n.links.length

theorem pres_refl (n : Node) : Pres n n := ⟨rfl, rfl, rfl⟩

theorem pres_trans {a b c : Node} (h1 : Pres a b) (h2 : Pres b c) : Pres a c :=
  ⟨h2.1.trans h1.1, h2.2.1.trans h1.2.1, h2.2.2.trans h1.2.2⟩

theorem linkPresent_congr {n n' : Node} (h : n'.links = n.links) (i : Nat) :
    linkPresent n' i = linkPresent n i := by
  simp [linkPresent, h]

theorem movementSelect_pres (n : Node) : Pres n (movementSelect n).2 := by
  cases h : n.movementFunction <;>
    simp [movementSelect, h, movementFunctionRandom, movementFunctionCyclic, Pres]

theorem movementSelect_inv {n : Node} (h : NodeInv n) : NodeInv (movementSelect n).2 := by
  have hpos : 0 < n.links.length := Nat.lt_of_le_of_lt (Nat.zero_le _) h
  cases hb : n.movementFunction <;>
    simp_all [movementSelect, movementFunctionRandom, movementFunctionCyclic, NodeInv]
  exact Nat.mod_lt _ hpos

theorem movementSelect_lt {n : Node} (h : NodeInv n) :
    (movementSelect n).1 < n.links.length := by
  have hpos : 0 < n.links.length := Nat.lt_of_le_of_lt (Nat.zero_le _) h
  cases hb : n.movementFunction <;>
    simp_all [movementSelect, movementFunctionRandom, movementFunctionCyclic, NodeInv]
  exact Nat.mod_lt _ hpos

theorem createEvent_pres (n : Node) : Pres n (createEvent n).2 := by
  simp [createEvent, Pres]

theorem createEvent_inv {n : Node} (h : NodeInv n) : NodeInv (createEvent n).2 := by
  simpa [createEvent, NodeInv] using h

theorem createEvent_counter (n : Node) :
    (createEvent n).2.movementFunctionCounter = n.movementFunctionCounter := rfl

theorem retryLoop_ok :
    ∀ (fuel : Nat) (n : Node) (r i : Nat) (n' : Node),
      retryLoop n r fuel = StepResult.ok (i, n') →
      Pres n n' ∧ (NodeInv n → NodeInv n') ∧ linkPresent n i = true := by
  intro fuel
  induction fuel with
  | zero =>
    intro n r i n' h
    cases hl : n.links[r]? with
    | none => simp [retryLoop, hl] at h
    | some b =>
      cases b with
      | false => simp [retryLoop, hl] at h
      | true =>
        simp [retryLoop, hl] at h
        obtain ⟨rfl, rfl⟩ := h
        exact ⟨pres_refl n, fun hv => hv, by simp [linkPresent, List.getD_eq_getElem?_getD, hl]⟩
  | succ f ih =>
    intro n r i n' h
    cases hl : n.links[r]? with
    | none => simp [retryLoop, hl] at h
    | some b =>
      cases b with
      | false =>
        simp [retryLoop, hl] at h
        obtain ⟨hp, hv, hpr⟩ := ih (movementSelect n).2 (movementSelect n).1 i n' h
        refine ⟨pres_trans (movementSelect_pres n) hp, fun h0 => hv (movementSelect_inv h0), ?_⟩
        rw [linkPresent_congr (movementSelect_pres n).2.1 i] at hpr
        exact hpr
      | true =>
        simp [retryLoop, hl] at h
        obtain ⟨rfl, rfl⟩ := h
        exact ⟨pres_refl n, fun hv => hv, by simp [linkPresent, List.getD_eq_getElem?_getD, hl]⟩

theorem retryLoop_no_oor :
    ∀ (fuel : Nat) (n : Node) (r : Nat), NodeInv n → r < n.links.length →
      retryLoop n r fuel ≠ StepResult.outOfRange := by
  intro fuel
  induction fuel with
  | zero =>
    intro n r _ hr
    cases hl : n.links[r]? with
    | none =>
      have := List.getElem?_eq_none_iff.mp hl
      omega
    | some b => cases b <;> simp [retryLoop, hl]
  | succ f ih =>
    intro n r hv hr
    cases hl : n.links[r]? with
    | none =>
      have := List.getElem?_eq_none_iff.mp hl
      omega
    | some b =>
      cases b with
      | true => simp [retryLoop, hl]
      | false =>
        simp only [retryLoop, hl]
        have hlt : (movementSelect n).1 < (movementSelect n).2.links.length := by
          rw [(movementSelect_pres n).2.1]; exact movementSelect_lt hv
        exact ih (movementSelect n).2 (movementSelect n).1 (movementSelect_inv hv) hlt

theorem retrySelect_ok {n : Node} {fuel i : Nat} {n' : Node}
    (h : retrySelect n fuel = StepResult.ok (i, n')) :
    Pres n n' ∧ (NodeInv n → NodeInv n') ∧ linkPresent n i = true := by
  obtain ⟨hp, hv, hpr⟩ :=
    retryLoop_ok fuel (movementSelect n).2 (movementSelect n).1 i n' h
  refine ⟨pres_trans (movementSelect_pres n) hp, fun h0 => hv (movementSelect_inv h0), ?_⟩
  rw [linkPresent_congr (movementSelect_pres n).2.1 i] at hpr
  exact hpr

theorem retrySelect_no_oor {n : Node} (fuel : Nat) (hv : NodeInv n) :
    retrySelect n fuel ≠ StepResult.outOfRange := by
  have hlt : (movementSelect n).1 < (movementSelect n).2.links.length := by
    rw [(movementSelect_pres n).2.1]; exact movementSelect_lt hv
  exact retryLoop_no_oor fuel (movementSelect n).2 (movementSelect n).1 (movementSelect_inv hv) hlt

theorem setupSendOne_ok {n : Node} {fuel : Nat} {n' : Node} {em : Emission}
    (h : setupSendOne n fuel = StepResult.ok (n', em)) :
    Pres n n' ∧ (NodeInv n → NodeInv n') ∧ linkPresent n em.1 = true ∧ em.2.1 = 0 := by
  simp only [setupSendOne] at h
  cases hr : retrySelect (createEvent n).2 fuel with
  | ok pr =>
    obtain ⟨r, n2⟩ := pr
    rw [hr] at h
    simp only [StepResult.ok.injEq, Prod.mk.injEq] at h
    obtain ⟨rfl, rfl⟩ := h
    obtain ⟨hp, hv, hpr⟩ := retrySelect_ok hr
    refine ⟨pres_trans (createEvent_pres n) hp,
      fun h0 => hv (createEvent_inv h0), ?_, rfl⟩
    rw [linkPresent_congr (createEvent_pres n).2.1 r] at hpr
    exact hpr
  | outOfRange => rw [hr] at h; exact absurd h (by simp)
  | fuelOut => rw [hr] at h; exact absurd h (by simp)

theorem setupSendOne_no_oor {n : Node} (fuel : Nat) (hv : NodeInv n) :
    setupSendOne n fuel ≠ StepResult.outOfRange := by
  simp only [setupSendOne]
  cases hr : retrySelect (createEvent n).2 fuel with
  | ok pr => simp
  | outOfRange => exact absurd hr (retrySelect_no_oor fuel (createEvent_inv hv))
  | fuelOut => simp

theorem handleEvent_ok {n : Node} {fuel : Nat} {n' : Node} {em : Emission}
    (h : handleEvent n fuel = StepResult.ok (n', em)) :
    n'.myId = n.myId ∧ n'.links = n.links ∧ (NodeInv n → NodeInv n') ∧
    n'.recvCount = n.recvCount + 1 ∧ linkPresent n em.1 = true ∧ em.2.1 = 0 := by
  simp only [handleEvent] at h
  set n1 : Node := { n with recvCount := n.recvCount + 1 } with hn1
  cases hr : retrySelect n1 fuel with
  | ok pr =>
    obtain ⟨r, n2⟩ := pr
    rw [hr] at h
    simp only [StepResult.ok.injEq, Prod.mk.injEq] at h
    obtain ⟨rfl, rfl⟩ := h
    obtain ⟨hp, hv, hpr⟩ := retrySelect_ok hr
    have hlinks1 : n1.links = n.links := rfl
    have hmy1 : n1.myId = n.myId := rfl
    have hrc1 : n1.recvCount = n.recvCount + 1 := rfl
    have hce := createEvent_pres n2
    refine ⟨hce.1.trans (hp.1.trans hmy1), hce.2.1.trans (hp.2.1.trans hlinks1),
      fun h0 => ?_, hce.2.2.trans (hp.2.2.trans hrc1), ?_, rfl⟩
    · have h1 : NodeInv n1 := by simpa [NodeInv, hn1] using h0
      have h2 : NodeInv n2 := hv h1
      simpa [NodeInv, (createEvent_pres n2).2.1] using h2
    · rw [linkPresent_congr hlinks1 r] at hpr
      exact hpr
  | outOfRange => rw [hr] at h; exact absurd h (by simp)
  | fuelOut => rw [hr] at h; exact absurd h (by simp)

theorem handleEvent_no_oor {n : Node} (fuel : Nat) (hv : NodeInv n) :
    handleEvent n fuel ≠ StepResult.outOfRange := by
  simp only [handleEvent]
  set n1 : Node := { n with recvCount := n.recvCount + 1 } with hn1
  have hv1 : NodeInv n1 := by simpa [NodeInv, hn1] using hv
  cases hr : retrySelect n1 fuel with
  | ok pr => simp
  | outOfRange => exact absurd hr (retrySelect_no_oor fuel hv1)
  | fuelOut => simp

theorem cppIntOfRat_eq_floor {q : ℚ} (h : 0 ≤ q) : cppIntOfRat q = ⌊q⌋ := by
  have hn : 0 ≤ q.num := Rat.num_nonneg.mpr h
  rw [cppIntOfRat, Rat.floor_def, Int.tdiv_eq_ediv hn (Int.natCast_nonneg q.den)]

theorem setupWhile_ok :
    ∀ (gas : Nat) (n : Node) (c : ℚ) (fuel : Nat) (n' : Node) (c' : ℚ) (ems : List Emission),
      0 ≤ c → setupWhile n c fuel gas = StepResult.ok (n', c', ems) →
      ems.length = (⌊c⌋).toNat ∧ c' = c - ⌊c⌋ ∧ Pres n n' ∧ (NodeInv n → NodeInv n') ∧
      (∀ e ∈ ems, linkPresent n e.1 = true ∧ e.2.1 = 0) := by
  intro gas
  induction gas with
  | zero =>
    intro n c fuel n' c' ems h0 h
    simp only [setupWhile] at h
    by_cases hc : (1:ℚ) ≤ c
    · simp [hc] at h
    · rw [if_neg hc] at h
      simp only [StepResult.ok.injEq, Prod.mk.injEq] at h
      obtain ⟨rfl, rfl, rfl⟩ := h
      have hfl : ⌊c⌋ = 0 := Int.floor_eq_zero_iff.mpr ⟨h0, lt_of_not_le hc⟩
      exact ⟨by simp [hfl], by simp [hfl], pres_refl n, fun hv => hv, by simp⟩
  | succ g ih =>
    intro n c fuel n' c' ems h0 h
    simp only [setupWhile] at h
    by_cases hc : (1:ℚ) ≤ c
    · rw [if_pos hc] at h
      cases hs : setupSendOne n fuel with
      | ok pr =>
        obtain ⟨n1, em⟩ := pr
        simp only [hs] at h
        cases hw : setupWhile n1 (c - 1) fuel g with
        | ok pr2 =>
          obtain ⟨n2, c2, ems2⟩ := pr2
          simp only [hw] at h
          simp only [StepResult.ok.injEq, Prod.mk.injEq] at h
          obtain ⟨rfl, rfl, rfl⟩ := h
          have h0' : (0:ℚ) ≤ c - 1 := by linarith
          obtain ⟨hlen, hc2, hp2, hv2, hpr2⟩ := ih n1 (c - 1) fuel n2 c2 ems2 h0' hw
          obtain ⟨hp1, hv1, hpr1, hd1⟩ := setupSendOne_ok hs
          have hfl : ⌊c - 1⌋ = ⌊c⌋ - 1 := by
            exact_mod_cast Int.floor_sub_int c 1
          have hfl1 : (1:ℤ) ≤ ⌊c⌋ := by
            rw [Int.le_floor]; exact_mod_cast hc
          refine ⟨?_, ?_, pres_trans hp1 hp2, fun hv => hv2 (hv1 hv), ?_⟩
          · simp only [List.length_cons, hlen, hfl]
            omega
          · rw [hc2, hfl]; push_cast; ring
          · intro e he
            rcases List.mem_cons.mp he with rfl | he2
            · exact ⟨hpr1, hd1⟩
            · have hin := hpr2 e he2
              rwa [linkPresent_congr hp1.2.1 e.1] at hin
        | outOfRange => simp [hw] at h
        | fuelOut => simp [hw] at h
      | outOfRange => simp [hs] at h
      | fuelOut => simp [hs] at h
    · rw [if_neg hc] at h
      simp only [StepResult.ok.injEq, Prod.mk.injEq] at h
      obtain ⟨rfl, rfl, rfl⟩ := h
      have hfl : ⌊c⌋ = 0 := Int.floor_eq_zero_iff.mpr ⟨h0, lt_of_not_le hc⟩
      exact ⟨by simp [hfl], by simp [hfl], pres_refl n, fun hv => hv, by simp⟩

theorem setupWhile_pres :
    ∀ (gas : Nat) (n : Node) (c : ℚ) (fuel : Nat) (n' : Node) (c' : ℚ) (ems : List Emission),
      setupWhile n c fuel gas = StepResult.ok (n', c', ems) →
      Pres n n' ∧ (NodeInv n → NodeInv n') := by
  intro gas
  induction gas with
  | zero =>
    intro n c fuel n' c' ems h
    simp only [setupWhile] at h
    by_cases hc : (1:ℚ) ≤ c
    · simp [hc] at h
    · rw [if_neg hc] at h
      simp only [StepResult.ok.injEq, Prod.mk.injEq] at h
      obtain ⟨rfl, -, -⟩ := h
      exact ⟨pres_refl n, fun hv => hv⟩
  | succ g ih =>
    intro n c fuel n' c' ems h
    simp only [setupWhile] at h
    by_cases hc : (1:ℚ) ≤ c
    · rw [if_pos hc] at h
      cases hs : setupSendOne n fuel with
      | ok pr =>
        obtain ⟨n1, em⟩ := pr
        simp only [hs] at h
        cases hw : setupWhile n1 (c - 1) fuel g with
        | ok pr2 =>
          obtain ⟨n2, c2, ems2⟩ := pr2
          simp only [hw] at h
          simp only [StepResult.ok.injEq, Prod.mk.injEq] at h
          obtain ⟨rfl, -, -⟩ := h
          obtain ⟨hp2, hv2⟩ := ih n1 (c - 1) fuel n2 c2 ems2 hw
          obtain ⟨hp1, hv1, -, -⟩ := setupSendOne_ok hs
          exact ⟨pres_trans hp1 hp2, fun hv => hv2 (hv1 hv)⟩
        | outOfRange => simp [hw] at h
        | fuelOut => simp [hw] at h
      | outOfRange => simp [hs] at h
      | fuelOut => simp [hs] at h
    · rw [if_neg hc] at h
      simp only [StepResult.ok.injEq, Prod.mk.injEq] at h
      obtain ⟨rfl, -, -⟩ := h
      exact ⟨pres_refl n, fun hv => hv⟩

theorem setupWhile_no_oor :
    ∀ (gas : Nat) (n : Node) (c : ℚ) (fuel : Nat), NodeInv n →
      setupWhile n c fuel gas ≠ StepResult.outOfRange := by
  intro gas
  induction gas with
  | zero =>
    intro n c fuel _
    simp only [setupWhile]
    by_cases hc : (1:ℚ) ≤ c <;> simp [hc]
  | succ g ih =>
    intro n c fuel hv
    simp only [setupWhile]
    by_cases hc : (1:ℚ) ≤ c
    · rw [if_pos hc]
      cases hs : setupSendOne n fuel with
      | ok pr =>
        obtain ⟨n1, em⟩ := pr
        obtain ⟨-, hv1, -, -⟩ := setupSendOne_ok hs
        simp only [hs]
        cases hw : setupWhile n1 (c - 1) fuel g with
        | ok pr2 => obtain ⟨n2, c2, ems2⟩ := pr2; simp [hw]
        | outOfRange => exact absurd hw (ih n1 (c - 1) fuel (hv1 hv))
        | fuelOut => simp [hw]
      | outOfRange => exact absurd hs (setupSendOne_no_oor fuel hv)
      | fuelOut => simp [hs]
    · rw [if_neg hc]; simp

theorem setup_ok {n n' : Node} {ems : List Emission} {fuel gas : Nat}
    (h0 : 0 ≤ n.eventDensity)
    (h : setup n fuel gas = StepResult.ok (n', ems)) :
    ems.length = (⌊n.eventDensity⌋).toNat +
      (if 0 < n.eventDensity - ⌊n.eventDensity⌋ ∧
          n.myId.tmod ⌊(1:ℚ) / (n.eventDensity - ⌊n.eventDensity⌋)⌋ = 0 then 1 else 0) ∧
    Pres n n' ∧ (NodeInv n → NodeInv n') ∧
    (∀ e ∈ ems, linkPresent n e.1 = true ∧ e.2.1 = 0) := by
  simp only [setup] at h
  cases hw : setupWhile n n.eventDensity fuel gas with
  | ok pr =>
    obtain ⟨n1, c1, ems1⟩ := pr
    simp only [hw] at h
    obtain ⟨hlen, hc1, hp1, hv1, hpr1⟩ :=
      setupWhile_ok gas n n.eventDensity fuel n1 c1 ems1 h0 hw
    have hfrac0 : (0:ℚ) ≤ n.eventDensity - ⌊n.eventDensity⌋ := by
      have := Int.floor_le n.eventDensity
      linarith
    by_cases hc : c1 ≤ 0
    · rw [if_pos hc] at h
      simp only [StepResult.ok.injEq, Prod.mk.injEq] at h
      obtain ⟨rfl, rfl⟩ := h
      have hfz : ¬(0 < n.eventDensity - (⌊n.eventDensity⌋:ℚ)) := by
        rw [← hc1]; exact not_lt.mpr hc
      rw [if_neg (fun hcontra => hfz hcontra.1)]
      exact ⟨by simpa using hlen, hp1, hv1, hpr1⟩
    · rw [if_neg hc] at h
      have hcpos : (0:ℚ) < c1 := lt_of_not_le hc
      have hfpos : (0:ℚ) < n.eventDensity - ⌊n.eventDensity⌋ := hc1 ▸ hcpos
      have hperiod : cppIntOfRat (1 / c1) =
          ⌊(1:ℚ) / (n.eventDensity - ⌊n.eventDensity⌋)⌋ := by
        rw [hc1]
        exact cppIntOfRat_eq_floor (le_of_lt (div_pos one_pos hfpos))
      have hmyid : n1.myId = n.myId := hp1.1
      by_cases ht : n1.myId.tmod (cppIntOfRat (1 / c1)) = 0
      · rw [if_pos ht] at h
        cases hs : setupSendOne n1 fuel with
        | ok pr2 =>
          obtain ⟨n2, em⟩ := pr2
          simp only [hs] at h
          simp only [StepResult.ok.injEq, Prod.mk.injEq] at h
          obtain ⟨rfl, rfl⟩ := h
          obtain ⟨hp2, hv2, hpr2, hd2⟩ := setupSendOne_ok hs
          have hcond : 0 < n.eventDensity - (⌊n.eventDensity⌋:ℚ) ∧
              n.myId.tmod ⌊(1:ℚ) / (n.eventDensity - ⌊n.eventDensity⌋)⌋ = 0 := by
            refine ⟨hfpos, ?_⟩
            rw [← hperiod, ← hmyid]
            exact ht
          rw [if_pos hcond]
          refine ⟨by simp [hlen], pres_trans hp1 hp2, fun hv => hv2 (hv1 hv), ?_⟩
          intro e he
          rcases List.mem_append.mp he with he1 | he2
          · exact hpr1 e he1
          · rcases List.mem_singleton.mp he2
            rw [linkPresent_congr hp1.2.1 em.1] at hpr2
            exact ⟨hpr2, hd2⟩
        | outOfRange => simp [hs] at h
        | fuelOut => simp [hs] at h
      · rw [if_neg ht] at h
        simp only [StepResult.ok.injEq, Prod.mk.injEq] at h
        obtain ⟨rfl, rfl⟩ := h
        have hcond : ¬(0 < n.eventDensity - (⌊n.eventDensity⌋:ℚ) ∧
            n.myId.tmod ⌊(1:ℚ) / (n.eventDensity - ⌊n.eventDensity⌋)⌋ = 0) := by
          intro hcontra
          apply ht
          rw [hperiod, hmyid]
          exact hcontra.2
        rw [if_neg hcond]
        exact ⟨by simpa using hlen, hp1, hv1, hpr1⟩
  | outOfRange => simp [hw] at h
  | fuelOut => simp [hw] at h

theorem setup_no_oor {n : Node} (fuel gas : Nat) (hv : NodeInv n) :
    setup n fuel gas ≠ StepResult.outOfRange := by
  simp only [setup]
  cases hw : setupWhile n n.eventDensity fuel gas with
  | ok pr =>
    obtain ⟨n1, c1, ems1⟩ := pr
    obtain ⟨-, hv1⟩ := setupWhile_pres gas n n.eventDensity fuel n1 c1 ems1 hw
    simp only [hw]
    by_cases hc : c1 ≤ 0
    · rw [if_pos hc]; simp
    · rw [if_neg hc]
      by_cases ht : n1.myId.tmod (cppIntOfRat (1 / c1)) = 0
      · rw [if_pos ht]
        cases hs : setupSendOne n1 fuel with
        | ok pr2 => obtain ⟨n2, em⟩ := pr2; simp [hs]
        | outOfRange => exact absurd hs (setupSendOne_no_oor fuel (hv1 hv))
        | fuelOut => simp [hs]
      · rw [if_neg ht]; simp
  | outOfRange => exact absurd hw (setupWhile_no_oor gas n n.eventDensity fuel hv)
  | fuelOut => simp [hw]

/-- Extract the node of an `ok` result carrying an emission list. -/
def okNodeL (r : StepResult (Node × List Emission)) : Node :=
  match r with
  | StepResult.ok (n, _) => n
  | _ => default

/-- Extract the emission list of an `ok` result. -/
def okEmsL (r : StepResult (Node × List Emission)) : List Emission :=
  match r with
  | StepResult.ok (_, e) => e
  | _ => []

/-- Extract the node of an `ok` result carrying a single emission. -/
def okNode1 (r : StepResult (Node × Emission)) : Node :=
  match r with
  | StepResult.ok (n, _) => n
  | _ => default

/-- Extract the emission of an `ok` result carrying a single emission. -/
def okEm1 (r : StepResult (Node × Emission)) : Emission :=
  match r with
  | StepResult.ok (_, e) => e
  | _ => (0, 0, 0)

/-- A concrete 1×1 configuration (one ring-0 link, all slots present,
density 5/2, random movement) used to instantiate the hypothesised
theorems at a checkable input. -/
def wParams : Params :=
  { numRings := 0, i := 0, j := 0, rowCount := 1, colCount := 1,
    smallPayload := 8, largePayload := 64, largeEventFraction := 1/2,
    verbose := 0, timeToRun := "1s", eventDensity := 5/2,
    movementFunctionStr := "random", present := fun _ => true }

/-- A concrete cyclic configuration with 9 link slots (one ring). -/
def wParamsCyclic : Params :=
  { numRings := 1, i := 1, j := 2, rowCount := 3, colCount := 3,
    smallPayload := 8, largePayload := 64, largeEventFraction := 1/2,
    verbose := 0, timeToRun := "1s", eventDensity := 2,
    movementFunctionStr := "cyclic", present := fun _ => true }

theorem mkNode_cyclic (p : Params) (h : p.movementFunctionStr = "cyclic") :
    (mkNode p).movementFunction = MovementBinding.cyclic ∧
    (mkNode p).movementFunctionType = CYCLIC := by
  constructor
  · show (parseMovementFunction p.movementFunctionStr).2.1 = _
    rw [h]
    rfl
  · show (parseMovementFunction p.movementFunctionStr).1 = _
    rw [h]
    rfl

theorem mkNode_links_pos (p : Params) : 0 < (mkNode p).links.length := by
  have hlen : (mkNode p).links.length =
      ((2 * p.numRings + 1) * (2 * p.numRings + 1)).toNat := by
    simp [mkNode]
  have hne : (2 * p.numRings + 1) ≠ 0 := by omega
  have hpos : 0 < (2 * p.numRings + 1) * (2 * p.numRings + 1) := mul_self_pos.mpr hne
  omega

theorem selectStream_cyclic :
    ∀ (k : Nat) (n : Node), n.movementFunction = MovementBinding.cyclic →
      n.movementFunctionCounter < n.links.length →
      (selectStream n k).1 = (n.movementFunctionCounter + k) % n.links.length ∧
      (selectStream n k).2.movementFunctionCounter =
        (n.movementFunctionCounter + k + 1) % n.links.length ∧
      (selectStream n k).2.links = n.links := by
  intro k
  induction k with
  | zero =>
    intro n hb hv
    refine ⟨?_, ?_, ?_⟩
    · simp [selectStream, movementSelect, hb, movementFunctionCyclic, Nat.mod_eq_of_lt hv]
    · simp [selectStream, movementSelect, hb, movementFunctionCyclic]
    · simp [selectStream, movementSelect, hb, movementFunctionCyclic]
  | succ k ih =>
    intro n hb hv
    have hpos : 0 < n.links.length := Nat.lt_of_le_of_lt (Nat.zero_le _) hv
    have hb' : (movementSelect n).2.movementFunction = MovementBinding.cyclic := by
      simp [movementSelect, hb, movementFunctionCyclic]
    have hlinks : (movementSelect n).2.links = n.links := (movementSelect_pres n).2.1
    have hc' : (movementSelect n).2.movementFunctionCounter =
        (n.movementFunctionCounter + 1) % n.links.length := by
      simp [movementSelect, hb, movementFunctionCyclic]
    have hv' : (movementSelect n).2.movementFunctionCounter <
        (movementSelect n).2.links.length := by
      rw [hc', hlinks]
      exact Nat.mod_lt _ hpos
    obtain ⟨h1, h2, h3⟩ := ih (movementSelect n).2 hb' hv'
    refine ⟨?_, ?_, h3.trans hlinks⟩
    · rw [selectStream, h1, hc', hlinks, Nat.mod_add_mod]
      congr 1
      omega
    · rw [selectStream, h2, hc', hlinks, Nat.add_assoc, Nat.mod_add_mod]
      congr 1
      omega

theorem serialize_deserialize (n : Node)
    (h : (n.movementFunctionType = RANDOM ∧ n.movementFunction = MovementBinding.random) ∨
         (n.movementFunctionType = CYCLIC ∧ n.movementFunction = MovementBinding.cyclic)) :
    deserialize (serialize n) = n := by
  rcases h with ⟨ht, hb⟩ | ⟨ht, hb⟩ <;>
    cases n <;>
    simp_all [deserialize, serialize, restoreMovement, RANDOM, CYCLIC]

theorem setup_pres {n n' : Node} {ems : List Emission} {fuel gas : Nat}
    (h : setup n fuel gas = StepResult.ok (n', ems)) :
    Pres n n' ∧ (NodeInv n → NodeInv n') := by
  simp only [setup] at h
  cases hw : setupWhile n n.eventDensity fuel gas with
  | ok pr =>
    obtain ⟨n1, c1, ems1⟩ := pr
    simp only [hw] at h
    obtain ⟨hp1, hv1⟩ := setupWhile_pres gas n n.eventDensity fuel n1 c1 ems1 hw
    by_cases hc : c1 ≤ 0
    · rw [if_pos hc] at h
      simp only [StepResult.ok.injEq, Prod.mk.injEq] at h
      obtain ⟨rfl, rfl⟩ := h
      exact ⟨hp1, hv1⟩
    · rw [if_neg hc] at h
      by_cases ht : n1.myId.tmod (cppIntOfRat (1 / c1)) = 0
      · rw [if_pos ht] at h
        cases hs : setupSendOne n1 fuel with
        | ok pr2 =>
          obtain ⟨n2, em⟩ := pr2
          simp only [hs] at h
          simp only [StepResult.ok.injEq, Prod.mk.injEq] at h
          obtain ⟨rfl, rfl⟩ := h
          obtain ⟨hp2, hv2, -, -⟩ := setupSendOne_ok hs
          exact ⟨pres_trans hp1 hp2, fun hv => hv2 (hv1 hv)⟩
        | outOfRange => simp [hs] at h
        | fuelOut => simp [hs] at h
      · rw [if_neg ht] at h
        simp only [StepResult.ok.injEq, Prod.mk.injEq] at h
        obtain ⟨rfl, rfl⟩ := h
        exact ⟨hp1, hv1⟩
  | outOfRange => simp [hw] at h
  | fuelOut => simp [hw] at h

/-- C1: Checkpoint round-trip.  Serializing a node and deserializing the
snapshot yields a node equal to the original (so with the same
movement-policy tag, cyclic counter, RNG state, counters and configuration
scalars), and feeding it any sequence of `k` subsequently delivered events
produces exactly the behavior of the never-checkpointed node: the same
final `recvCount` and RNG state and the same emitted
(neighbor index, delay, payload size) tuples at every step.  The hypothesis
states that the node's bound movement function matches its serialized tag,
which holds for every constructed node. -/
theorem checkpoint_roundtrip_behavior (n : Node) (fuel k : Nat)
    (h : (n.movementFunctionType = RANDOM ∧ n.movementFunction = MovementBinding.random) ∨
         (n.movementFunctionType = CYCLIC ∧ n.movementFunction = MovementBinding.cyclic)) :
    deserialize (serialize n) = n ∧
    runEvents (deserialize (serialize n)) fuel k = runEvents n fuel k := by
  have hrt := serialize_deserialize n h
  exact ⟨hrt, by rw [hrt]⟩

/-- C1 witness: the round-trip theorem applied to a concretely constructed
node, three delivered events. -/
theorem checkpoint_roundtrip_behavior_witness :
    deserialize (serialize (mkNode wParams)) = mkNode wParams ∧
    runEvents (deserialize (serialize (mkNode wParams))) 2 3 = runEvents (mkNode wParams) 2 3 :=
  checkpoint_roundtrip_behavior (mkNode wParams) 2 3 (by with_unfolding_all decide)

/-- C2: Initial load generation.  For a node with `eventDensity d ≥ 0`, a
successful `setup` sends exactly `⌊d⌋` unconditional events plus, when
`frac = d - ⌊d⌋ > 0`, exactly one additional event if and only if
`globalId mod ⌊1/frac⌋ = 0` (and none when `frac = 0`); every event goes to
a present neighbor slot. -/
theorem setup_initial_load (n n' : Node) (ems : List Emission) (fuel gas : Nat)
    (h0 : 0 ≤ n.eventDensity)
    (hok : setup n fuel gas = StepResult.ok (n', ems)) :
    ems.length = (⌊n.eventDensity⌋).toNat +
      (if 0 < n.eventDensity - ⌊n.eventDensity⌋ ∧
          n.myId.tmod ⌊(1:ℚ) / (n.eventDensity - ⌊n.eventDensity⌋)⌋ = 0 then 1 else 0) ∧
    ems.all (fun e => linkPresent n e.1) = true := by
  obtain ⟨hlen, -, -, hpr⟩ := setup_ok h0 hok
  exact ⟨hlen, List.all_eq_true.mpr fun e he => (hpr e he).1⟩

/-- C2 witness: density `5/2`, `globalId = 0`: three events, all to present
slots. -/
theorem setup_initial_load_witness :
    (okEmsL (setup (mkNode wParams) 5 5)).length =
      (⌊(mkNode wParams).eventDensity⌋).toNat +
      (if 0 < (mkNode wParams).eventDensity - ⌊(mkNode wParams).eventDensity⌋ ∧
          (mkNode wParams).myId.tmod
            ⌊(1:ℚ) / ((mkNode wParams).eventDensity - ⌊(mkNode wParams).eventDensity⌋)⌋ = 0
        then 1 else 0) ∧
    (okEmsL (setup (mkNode wParams) 5 5)).all (fun e => linkPresent (mkNode wParams) e.1) = true :=
  setup_initial_load (mkNode wParams) (okNodeL (setup (mkNode wParams) 5 5))
    (okEmsL (setup (mkNode wParams) 5 5)) 5 5
    (by with_unfolding_all decide) (by with_unfolding_all decide)

/-- A copy of the reference configuration with a strictly negative configured
event density. -/
def wParamsNeg : Params :=
  { wParams with eventDensity := -1 }

/-- C3 counterexample: a node constructed with `eventDensity = -1 ≤ 0` does
not send nothing during `setup`: the constructor replaces the negative
density by `links.size() = 1`, and `setup` succeeds sending exactly one
event. -/
theorem setup_nonpositive_density_cex :
    wParamsNeg.eventDensity ≤ 0 ∧
    setup (mkNode wParamsNeg) 1 1 =
      StepResult.ok (okNodeL (setup (mkNode wParamsNeg) 1 1),
        okEmsL (setup (mkNode wParamsNeg) 1 1)) ∧
    (okEmsL (setup (mkNode wParamsNeg) 1 1)).length = 1 := by
  refine ⟨by with_unfolding_all decide, by with_unfolding_all decide,
    by with_unfolding_all decide⟩

/-- C3 (amended): a node constructed with `eventDensity = 0` sends nothing
during `setup` (the strictly negative case is excluded, since the
constructor substitutes the link count there). -/
theorem setup_zero_density_sends_nothing (p : Params) (fuel gas : Nat)
    (h0 : p.eventDensity = 0) :
    setup (mkNode p) fuel gas = StepResult.ok (mkNode p, []) := by
  have hd : (mkNode p).eventDensity = 0 := by
    simp [mkNode, h0]
  cases gas with
  | zero =>
    simp only [setup, setupWhile, hd]
    norm_num
  | succ g =>
    simp only [setup, setupWhile, hd]
    norm_num

/-- C3 witness: the amended theorem at a concrete zero-density
configuration. -/
theorem setup_zero_density_sends_nothing_witness :
    setup (mkNode { wParams with eventDensity := 0 }) 1 1 =
      StepResult.ok (mkNode { wParams with eventDensity := 0 }, []) :=
  setup_zero_density_sends_nothing { wParams with eventDensity := 0 } 1 1 rfl

/-- C4: Cyclic neighbor selection.  On a freshly constructed node with the
cyclic movement policy, the `k`-th `movementFunction()` call (counting from
0) returns `k mod numLinks`, and after it the counter equals
`(k + 1) mod numLinks`, hence stays in `[0, numLinks)`. -/
theorem cyclic_selection_kth (p : Params) (k : Nat)
    (h : p.movementFunctionStr = "cyclic") :
    (selectStream (mkNode p) k).1 = k % (mkNode p).links.length ∧
    (selectStream (mkNode p) k).2.movementFunctionCounter =
      (k + 1) % (mkNode p).links.length ∧
    (selectStream (mkNode p) k).2.movementFunctionCounter < (mkNode p).links.length := by
  have hb := (mkNode_cyclic p h).1
  have hpos : 0 < (mkNode p).links.length := mkNode_links_pos p
  have hc0 : (mkNode p).movementFunctionCounter = 0 := rfl
  have hv : (mkNode p).movementFunctionCounter < (mkNode p).links.length := by
    rw [hc0]; exact hpos
  obtain ⟨h1, h2, -⟩ := selectStream_cyclic k (mkNode p) hb hv
  rw [hc0, Nat.zero_add] at h1 h2
  exact ⟨h1, h2, by rw [h2]; exact Nat.mod_lt _ hpos⟩

/-- C4 witness: 9 link slots, the call of rank 10 returns `10 mod 9 = 1` and
leaves the counter at `11 mod 9 = 2`. -/
theorem cyclic_selection_kth_witness :
    (selectStream (mkNode wParamsCyclic) 10).1 = 10 % (mkNode wParamsCyclic).links.length ∧
    (selectStream (mkNode wParamsCyclic) 10).2.movementFunctionCounter =
      (10 + 1) % (mkNode wParamsCyclic).links.length ∧
    (selectStream (mkNode wParamsCyclic) 10).2.movementFunctionCounter <
      (mkNode wParamsCyclic).links.length :=
  cyclic_selection_kth wParamsCyclic 10 rfl

/-- C5: RNG determinism.  The per-node RNG is seeded solely from `globalId`:
two nodes constructed from configurations that yield the same
`globalId = i*colCount + j` produce identical draw sequences for every
identical call sequence (mixing `nextUniformReal` and `nextUniformUint32`),
whatever the rest of the configuration. -/
theorem rng_seed_determinism (p q : Params) (calls : List RngCall)
    (h : p.i * p.colCount + p.j = q.i * q.colCount + q.j) :
    runRng (mkNode p).rng calls = runRng (mkNode q).rng calls := by
  have hp : (mkNode p).rng = ⟨p.i * p.colCount + p.j, 0⟩ := rfl
  have hq : (mkNode q).rng = ⟨q.i * q.colCount + q.j, 0⟩ := rfl
  rw [hp, hq, h]

/-- C5 witness: two configurations with `globalId = 0` but different grids,
densities and movement policies draw identically. -/
theorem rng_seed_determinism_witness :
    runRng (mkNode wParams).rng [RngCall.real, RngCall.word, RngCall.real] =
      runRng (mkNode { wParamsCyclic with i := 0, j := 0 }).rng
        [RngCall.real, RngCall.word, RngCall.real] :=
  rng_seed_determinism wParams { wParamsCyclic with i := 0, j := 0 }
    [RngCall.real, RngCall.word, RngCall.real] (by decide)

/-- C6: Event payload creation.  `createEvent` draws exactly one uniform
real `r` from the node's RNG (the seed is unchanged, the draw index advances
by one) and returns `largePayload` bytes when `r < largeEventFraction`,
else `smallPayload` bytes; nothing else in the node state changes.  The
payload sizes are assumed non-negative and the fraction in `[0,1]`, as the
claim states. -/
theorem createEvent_payload (n : Node)
    (_h1 : 0 ≤ n.smallPayload) (_h2 : 0 ≤ n.largePayload)
    (_h3 : 0 ≤ n.largeEventFraction) (_h4 : n.largeEventFraction ≤ 1) :
    (createEvent n).1 =
      (if (nextUniform n.rng).1 < n.largeEventFraction then n.largePayload
        else n.smallPayload) ∧
    (createEvent n).2.rng.seed = n.rng.seed ∧
    (createEvent n).2.rng.index = n.rng.index + 1 ∧
    (createEvent n).2 = { n with rng := (nextUniform n.rng).2 } :=
  ⟨rfl, rfl, rfl, rfl⟩

/-- C6 witness: the payload factory contract at a concrete node. -/
theorem createEvent_payload_witness :
    (createEvent (mkNode wParams)).1 =
      (if (nextUniform (mkNode wParams).rng).1 < (mkNode wParams).largeEventFraction
        then (mkNode wParams).largePayload else (mkNode wParams).smallPayload) ∧
    (createEvent (mkNode wParams)).2.rng.seed = (mkNode wParams).rng.seed ∧
    (createEvent (mkNode wParams)).2.rng.index = (mkNode wParams).rng.index + 1 ∧
    (createEvent (mkNode wParams)).2 =
      { mkNode wParams with rng := (nextUniform (mkNode wParams).rng).2 } :=
  createEvent_payload (mkNode wParams) (by with_unfolding_all decide)
    (by with_unfolding_all decide) (by with_unfolding_all decide)
    (by with_unfolding_all decide)

/-- C7: Unrecognized movement-policy fallback.  Any configuration string
other than "random" and "cyclic" parses, with a warning, to the random
policy (both the tag and the bound function of the constructed node), and
any serialized tag other than `RANDOM` and `CYCLIC` restores, with a
warning, the random binding; neither path is fatal (both functions are
total). -/
theorem movement_fallback_random (s : String) (tag : Nat) (p : Params) (snap : Snapshot)
    (hs1 : s ≠ "random") (hs2 : s ≠ "cyclic")
    (ht1 : tag ≠ RANDOM) (ht2 : tag ≠ CYCLIC)
    (hp : p.movementFunctionStr = s) (hsn : snap.movementFunctionType = tag) :
    parseMovementFunction s = (RANDOM, MovementBinding.random, true) ∧
    (mkNode p).movementFunctionType = RANDOM ∧
    (mkNode p).movementFunction = MovementBinding.random ∧
    restoreMovement tag = (MovementBinding.random, true) ∧
    (deserialize snap).movementFunction = MovementBinding.random := by
  have hparse : parseMovementFunction s = (RANDOM, MovementBinding.random, true) := by
    simp [parseMovementFunction, hs1, hs2]
  have hrest : restoreMovement tag = (MovementBinding.random, true) := by
    simp [restoreMovement, ht1, ht2]
  refine ⟨hparse, ?_, ?_, hrest, ?_⟩
  · show (parseMovementFunction p.movementFunctionStr).1 = RANDOM
    rw [hp, hparse]
  · show (parseMovementFunction p.movementFunctionStr).2.1 = MovementBinding.random
    rw [hp, hparse]
  · show (restoreMovement snap.movementFunctionType).1 = MovementBinding.random
    rw [hsn, hrest]

/-- C7 witness: the fallback theorem at the string "teleport" and the tag 7. -/
theorem movement_fallback_random_witness :
    parseMovementFunction "teleport" = (RANDOM, MovementBinding.random, true) ∧
    (mkNode { wParams with movementFunctionStr := "teleport" }).movementFunctionType = RANDOM ∧
    (mkNode { wParams with movementFunctionStr := "teleport" }).movementFunction =
      MovementBinding.random ∧
    restoreMovement 7 = (MovementBinding.random, true) ∧
    (deserialize { serialize (mkNode wParams) with movementFunctionType := 7 }).movementFunction =
      MovementBinding.random :=
  movement_fallback_random "teleport" 7 { wParams with movementFunctionStr := "teleport" }
    { serialize (mkNode wParams) with movementFunctionType := 7 }
    (by decide) (by decide) (by decide) (by decide) rfl rfl

/-- C8: Node identity.  The constructor computes
`globalId = row * colCount + col`, and `globalId` never changes afterwards:
both the dispatch step and the initial-load generation leave `myId`
untouched. -/
theorem globalId_formula_immutable (p : Params) (n n2 m m2 : Node) (em : Emission)
    (ems : List Emission) (fuel gas : Nat)
    (hh : handleEvent n fuel = StepResult.ok (n2, em))
    (hsu : setup m fuel gas = StepResult.ok (m2, ems)) :
    (mkNode p).myId = p.i * p.colCount + p.j ∧ n2.myId = n.myId ∧ m2.myId = m.myId :=
  ⟨rfl, (handleEvent_ok hh).1, (setup_pres hsu).1.1⟩

/-- C8 witness: the identity formula and its preservation at concrete
nodes. -/
theorem globalId_formula_immutable_witness :
    (mkNode wParamsCyclic).myId = wParamsCyclic.i * wParamsCyclic.colCount + wParamsCyclic.j ∧
    (okNode1 (handleEvent (mkNode wParams) 2)).myId = (mkNode wParams).myId ∧
    (okNodeL (setup (mkNode wParams) 5 5)).myId = (mkNode wParams).myId :=
  globalId_formula_immutable wParamsCyclic (mkNode wParams)
    (okNode1 (handleEvent (mkNode wParams) 2)) (mkNode wParams)
    (okNodeL (setup (mkNode wParams) 5 5)) (okEm1 (handleEvent (mkNode wParams) 2))
    (okEmsL (setup (mkNode wParams) 5 5)) 2 5
    (by with_unfolding_all decide) (by with_unfolding_all decide)

/-- C9: Negative configured density.  The constructor of the current variant
replaces a strictly negative `eventDensity` by the link count
`numLinks = (2*numRings+1)^2` before any event generation, so a successful
`setup` of such a node sends exactly `numLinks` unconditional events; the
older variant's constructor keeps the literal negative value. -/
theorem negative_density_substitution (p : Params) (n' : Node) (ems : List Emission)
    (fuel gas : Nat)
    (hneg : p.eventDensity < 0)
    (hok : setup (mkNode p) fuel gas = StepResult.ok (n', ems)) :
    (mkNode p).eventDensity = (((2 * p.numRings + 1) * (2 * p.numRings + 1)).toNat : ℚ) ∧
    ems.length = ((2 * p.numRings + 1) * (2 * p.numRings + 1)).toNat ∧
    (mkNodeOld p).eventDensity = p.eventDensity := by
  have hd : (mkNode p).eventDensity =
      (((2 * p.numRings + 1) * (2 * p.numRings + 1)).toNat : ℚ) := by
    simp [mkNode, hneg]
  refine ⟨hd, ?_, rfl⟩
  have h0 : 0 ≤ (mkNode p).eventDensity := by
    rw [hd]; exact Nat.cast_nonneg _
  obtain ⟨hlen, -, -, -⟩ := setup_ok h0 hok
  rw [hd] at hlen
  set N : Nat := ((2 * p.numRings + 1) * (2 * p.numRings + 1)).toNat with hN
  rw [Int.floor_natCast] at hlen
  have hz : (N:ℚ) - ((N:ℤ):ℚ) = 0 := by push_cast; ring
  rw [hz] at hlen
  simpa using hlen

/-- C9 witness: a configuration with density `-1` and one link slot sends
exactly one event. -/
theorem negative_density_substitution_witness :
    (mkNode wParamsNeg).eventDensity =
      (((2 * wParamsNeg.numRings + 1) * (2 * wParamsNeg.numRings + 1)).toNat : ℚ) ∧
    (okEmsL (setup (mkNode wParamsNeg) 1 1)).length =
      ((2 * wParamsNeg.numRings + 1) * (2 * wParamsNeg.numRings + 1)).toNat ∧
    (mkNodeOld wParamsNeg).eventDensity = wParamsNeg.eventDensity :=
  negative_density_substitution wParamsNeg (okNodeL (setup (mkNode wParamsNeg) 1 1))
    (okEmsL (setup (mkNode wParamsNeg) 1 1)) 1 1
    (by with_unfolding_all decide) (by with_unfolding_all decide)

/-- C10: Selector bounds and in-bounds accesses.  Under the counter
invariant (the cyclic counter is a valid index, which forces a non-empty
link vector), both movement policies return an index strictly below
`links.size()` and maintain the invariant, and no `links.at` access of the
retry loops of the dispatch step or of `setup` is out of range. -/
theorem selector_in_bounds (n : Node) (fuel gas : Nat)
    (hv : n.movementFunctionCounter < n.links.length) :
    (movementSelect n).1 < n.links.length ∧
    (movementSelect n).2.movementFunctionCounter < (movementSelect n).2.links.length ∧
    retrySelect n fuel ≠ StepResult.outOfRange ∧
    handleEvent n fuel ≠ StepResult.outOfRange ∧
    setup n fuel gas ≠ StepResult.outOfRange := by
  have hv' : NodeInv n := hv
  exact ⟨movementSelect_lt hv', movementSelect_inv hv', retrySelect_no_oor fuel hv',
    handleEvent_no_oor fuel hv', setup_no_oor fuel gas hv'⟩

/-- C10 witness: the bounds at a concrete node. -/
theorem selector_in_bounds_witness :
    (movementSelect (mkNode wParams)).1 < (mkNode wParams).links.length ∧
    (movementSelect (mkNode wParams)).2.movementFunctionCounter <
      (movementSelect (mkNode wParams)).2.links.length ∧
    retrySelect (mkNode wParams) 1 ≠ StepResult.outOfRange ∧
    handleEvent (mkNode wParams) 1 ≠ StepResult.outOfRange ∧
    setup (mkNode wParams) 1 1 ≠ StepResult.outOfRange :=
  selector_in_bounds (mkNode wParams) 1 1 (by with_unfolding_all decide)

end Phold
